import Mathlib

/-!
Shallow embedding of the `chained` crate (src/lib.rs): a lazily-evaluated
function-composition primitive for single values.

The crate's pieces, and their embeddings here:

* trait `Chained { type Item; fn eval(self) -> Self::Item; fn chain(self, f) -> Chain<...> }`
  becomes the class `Chained` (the associated type `Item` is an `outParam`)
  together with the definition `Chained.chain`.
* `struct Link<T>(T)` with `Link::new`, `impl From<T> for Link<T>`, and
  `impl Chained for Link<T>` become `Link`, `Link.new`, `Link.fromValue`
  (`from` is a Lean keyword) and the instance `instChainedLink`.
* `struct Chain<C, F, T> { val: C, fun: F }` with its `Chained` impl becomes
  `Chain` (the closure field is called `fn` since `fun` is a Lean keyword)
  and the instance `instChainedChain`.
* the blanket `impl<T> IntoChained for T` provided methods become plain
  definitions (`into_chained`, `to_chained`, `chained_as_mut`, ...).
* Rust closures are embedded as Lean functions.  Where a claim is about
  side effects or mutation through references, a second, state-passing
  rendering of the very same code is used (`SChained`, `SLink`, `SChain`):
  each transformation additionally threads a store `σ`, `Link`'s `eval`
  returns its held value without touching the store, and `Chain`'s `eval`
  first evaluates the predecessor and then applies the held transformation,
  exactly as in the source.
* to quantify over chains of arbitrary length (whose Rust types are nested
  generics of depth n) we package a carrier type, its `Chained` instance
  and a value as `EvalPack`, with `EvalPack.attach` performing one `chain`
  call and `chainAll` performing one `chain` call per list element —
  mirroring the `$(.chain($fn))*` expansion of the `chained!` macro.
-/

/-- Embedding of the trait `Chained`: `C` is the implementing type, `B` its
associated `Item` type, and `eval` the consuming evaluation operation. -/
class Chained (C : Type) (B : outParam Type) where
  eval : C → B

/-- Embedding of `struct Link<T>(T)`: the terminal node, holding one value. -/
structure Link (T : Type) where
  val : T

/-- Embedding of `Link::new(val: T) -> Self { Link(val) }`. -/
def Link.new {T : Type} (val : T) : Link T :=
  Link.mk val

/-- Embedding of `impl<T> From<T> for Link<T> { fn from(value) { Link::new(value) } }`
(named `fromValue` because `from` is a Lean keyword). -/
def Link.fromValue {T : Type} (value : T) : Link T :=
  Link.new value

/-- Embedding of `impl<T> Chained for Link<T>`: `eval(self) { self.0 }`. -/
instance instChainedLink {T : Type} : Chained (Link T) T where
  eval l := l.val

/-- Embedding of `struct Chain<C: Chained, F, T> { val: C, fun: F }` where
`F: FnOnce(C::Item) -> T`; the closure field `fun` is rendered as the
function field `fn`. -/
structure Chain (C B T : Type) [Chained C B] where
  val : C
  fn : B → T

/-- Embedding of the provided method
`fn chain<F, T>(self, fun: F) -> Chain<Self, F, T> { Chain { val: self, fun } }`. -/
def Chained.chain {C B T : Type} [Chained C B] (self : C) (f : B → T) :
    Chain C B T :=
  Chain.mk self f

/-- Embedding of `impl Chained for Chain`: `eval(self) { (self.fun)(self.val.eval()) }`. -/
instance instChainedChain {C B T : Type} [Chained C B] : Chained (Chain C B T) T where
  eval c := c.fn (Chained.eval c.val)

/-- Embedding of `IntoChained::into_chained(self) -> Link<Self> { Link::new(self) }`;
the blanket `impl<T> IntoChained for T` makes it available at every type. -/
def into_chained {T : Type} (self : T) : Link T :=
  Link.new self

/-- Embedding of `IntoChained::to_chained(&self) -> Link<Self> where Self: Clone
{ Link::new(self.clone()) }`.  The `Clone` implementation of the receiver's
type is passed explicitly as `cl`. -/
def to_chained {T : Type} (cl : T → T) (self : T) : Link T :=
  Link.new (cl self)

/-- A package of an implementing type, its `Chained` instance and a value of
that type: lets statements quantify over chains of every length, whose Rust
types are nested generics of depth equal to the number of attached steps. -/
structure EvalPack (α : Type) : Type 1 where
  Carrier : Type
  inst : Chained Carrier α
  value : Carrier

/-- Evaluate the packaged chain with its packaged instance. -/
def EvalPack.evalP {α : Type} (p : EvalPack α) : α :=
  @Chained.eval p.Carrier α p.inst p.value

/-- Attach one step to a packaged chain: one `.chain(f)` call. -/
def EvalPack.attach {α : Type} (p : EvalPack α) (f : α → α) : EvalPack α where
  Carrier := @Chain p.Carrier α α p.inst
  inst := @instChainedChain p.Carrier α α p.inst
  value := @Chained.chain p.Carrier α α p.inst p.value f

/-- Package a terminal node `Link::new v`. -/
def linkPack {α : Type} (v : α) : EvalPack α :=
  EvalPack.mk (Link α) instChainedLink (Link.new v)

/-- Attach a list of steps left-to-right: the `$(.chain($fn))*` expansion of
the `chained!` macro, one `chain` call per step. -/
def chainAll {α : Type} (p : EvalPack α) : List (α → α) → EvalPack α
  | [] => p
  | f :: fs => chainAll (p.attach f) fs

/-- State-passing rendering of the trait `Chained`, used for the claims about
side effects and mutation through references: evaluation threads a store `σ`
(the memory the chain's references point into).  The code shape is identical
to `Chained`; only the function spaces are effectful. -/
class SChained (σ : Type) (C : Type) (B : outParam Type) where
  evalS : C → σ → B × σ

/-- State-passing rendering of `Link<T>`. -/
structure SLink (T : Type) where
  val : T

/-- State-passing rendering of `Link::new`. -/
def SLink.newS {T : Type} (val : T) : SLink T :=
  SLink.mk val

/-- State-passing rendering of `impl<T> Chained for Link<T>`: `eval` returns
the held value `self.0` and performs no effect on the store. -/
instance instSChainedLink {σ T : Type} : SChained σ (SLink T) T where
  evalS l s := (l.val, s)

/-- State-passing rendering of `Chain`, holding a predecessor and one
effectful transformation. -/
structure SChain (σ C B T : Type) [SChained σ C B] where
  val : C
  fn : B → σ → T × σ

/-- State-passing rendering of the provided method `chain`: a pure
structure-building step, not itself a store action. -/
def SChained.chainS {σ C B T : Type} [SChained σ C B] (self : C)
    (f : B → σ → T × σ) : SChain σ C B T :=
  SChain.mk self f

/-- State-passing rendering of `impl Chained for Chain`:
`(self.fun)(self.val.eval())` — evaluate the predecessor first (with its
effects), then apply the held transformation to the result. -/
instance instSChainedChain {σ C B T : Type} [SChained σ C B] :
    SChained σ (SChain σ C B T) T where
  evalS c s :=
    let p := SChained.evalS c.val s
    c.fn p.1 p.2

/-- A mutable borrow `&mut T` of one variable, rendered as a token; the
borrowed variable itself is the store `σ = T` threaded by `SChained`. -/
structure MutR (T : Type) where
  tok : Unit

/-- A shared borrow `&T`: a read-only view carrying the viewed value. -/
structure Shrd (T : Type) where
  get : T

/-- The implicit Rust coercion from `&mut T` to `&T` that the body of
`chained_as_mut` performs when `Link::new(self.as_mut())` is typed at
`Link<&T>`: the resulting view is read-only. -/
def mutToShrd {T : Type} (v : T) (_ : MutR T) : Shrd T :=
  Shrd.mk v

/-- Embedding of `IntoChained::chained_mut(&mut self) -> Link<&mut Self>
{ Link::new(self) }` in the state-passing rendering: the terminal node holds
the mutable borrow of the variable that is the store. -/
def chained_mut {T : Type} (r : MutR T) : SLink (MutR T) :=
  SLink.newS r

/-- Embedding of
`fn chained_as_mut<T: ?Sized>(&mut self) -> Link<&T> where Self: AsMut<T>
{ Link::new(self.as_mut()) }` exactly as declared in the source: although
the body obtains `&mut T` from `as_mut`, the declared return type is
`Link<&T>`, so the held view is the read-only `Shrd T` obtained by the
`&mut T → &T` coercion.  `asMut` is the receiver type's `AsMut`
implementation, read as the viewed value it exposes. -/
def chained_as_mut {S T : Type} (asMut : S → T) (self : S) : Link (Shrd T) :=
  Link.new (mutToShrd (asMut self) (MutR.mk ()))

/-- Embedding of
`fn chained_as_ref<T: ?Sized>(&self) -> Link<&T> where Self: AsRef<T>
{ Link::new(self.as_ref()) }`. -/
def chained_as_ref {S T : Type} (asRef : S → T) (self : S) : Link (Shrd T) :=
  Link.new (Shrd.mk (asRef self))

/-- `to_chained` viewed as an action on its receiver variable (the store):
the receiver is taken by `&self`, so construction reads the variable,
duplicates it with its `Clone` implementation `cl`, and hands the duplicate
to `Link::new`; the variable itself is returned unchanged. -/
def to_chained_st {T : Type} (cl : T → T) (st : T) : SLink T × T :=
  (SLink.newS (cl st), st)

/-- The `#[derive(Clone)]` of `Link<T>`: clone the single field with `T`'s
`Clone` implementation `clT`. -/
def Link.cloneL {T : Type} (clT : T → T) (l : Link T) : Link T :=
  Link.mk (clT l.val)

/-- The `#[derive(Clone)]` of `Chain`: clone the predecessor field with its
`Clone` implementation `clC` and the closure field with its `Clone`
implementation `clF`. -/
def Chain.cloneC {C B T : Type} [Chained C B] (clC : C → C)
    (clF : (B → T) → (B → T)) (c : Chain C B T) : Chain C B T :=
  Chain.mk (clC c.val) (clF c.fn)

/-- The chain of the crate's `cloned` test: `chained!(0..100, |x| x.sum())`,
the range `0..100` rendered as `List.range 100` and `Iterator::sum` as a
left fold of addition. -/
def sumChain : Chain (Link (List Nat)) (List Nat) Nat :=
  Chained.chain (Link.new (List.range 100)) (fun l => l.foldl (· + ·) 0)

theorem EvalPack.evalP_attach {α : Type} (p : EvalPack α) (f : α → α) :
    (p.attach f).evalP = f p.evalP :=
  rfl

theorem evalP_chainAll {α : Type} (p : EvalPack α) (fs : List (α → α)) :
    (chainAll p fs).evalP = fs.foldl (fun a f => f a) p.evalP := by
  induction fs generalizing p with
  | nil => rfl
  | cons f fs ih =>
    simp only [chainAll, List.foldl_cons, ih, EvalPack.evalP_attach]

/-- Expansion of the bare `chained!($val, $($fn),*)` (and its `=>` twin):
`Link::new($val) $(.chain($fn))*`, the chain left unevaluated. -/
def expandBare {α : Type} (v : α) (fs : List (α → α)) : EvalPack α :=
  chainAll (linkPack v) fs

/-- Expansion of `chained!(>> $val, $($fn),*)` (and its `=>` twin):
`Link::new($val) $(.chain($fn))* .eval()`. -/
def expandBareEval {α : Type} (v : α) (fs : List (α → α)) : α :=
  (chainAll (linkPack v) fs).evalP

/-- Expansion of `chained!(=> $val, $($fn),+)` (and its `=>` twin):
`$val $(.chain($fn))+`, attaching to an existing chain without evaluating. -/
def expandExtend {α : Type} (p : EvalPack α) (fs : List (α → α)) : EvalPack α :=
  chainAll p fs

/-- Expansion of `chained!(>>> $val, $($fn),+)` (and its `=>` twin):
`$val $(.chain($fn))* .eval()`. -/
def expandExtendEval {α : Type} (p : EvalPack α) (fs : List (α → α)) : α :=
  (chainAll p fs).evalP

/-- Spec-side lowering of the bare form, following the words of §6:
construct a terminal node from the value, then attach each step
left-to-right (a left fold of the attach operation), leaving the chain
unevaluated. -/
def lowerBare {α : Type} (v : α) (fs : List (α → α)) : EvalPack α :=
  fs.foldl EvalPack.attach (linkPack v)

/-- Spec-side lowering of the `=>`-prefixed form: treat the first argument
as an already-built evaluable and attach each further step left-to-right,
without evaluating. -/
def lowerExtend {α : Type} (p : EvalPack α) (fs : List (α → α)) : EvalPack α :=
  fs.foldl EvalPack.attach p

theorem chainAll_eq_foldl_attach {α : Type} (p : EvalPack α)
    (fs : List (α → α)) : chainAll p fs = fs.foldl EvalPack.attach p := by
  induction fs generalizing p with
  | nil => rfl
  | cons f fs ih => simp only [chainAll, List.foldl_cons, ih]

/-- C1: evaluating a composition node applies its held transformation to the
result of recursively evaluating its predecessor; consequently, for every
initial value `v` and list of steps attached in order, evaluation yields the
left-to-right fold of the steps over `v`, and in particular the chain built
from `1` with steps `x+x`, `x-x`, `x*x` evaluates to `0`. -/
theorem eval_chain_comp_and_order :
    (∀ (C B T : Type) (i : Chained C B) (c : C) (f : B → T),
        @Chained.eval _ _ (@instChainedChain C B T i) (@Chained.chain C B T i c f)
          = f (@Chained.eval C B i c))
    ∧ (∀ (α : Type) (v : α) (fs : List (α → α)),
        (chainAll (linkPack v) fs).evalP = fs.foldl (fun a f => f a) v)
    ∧ (chainAll (linkPack 1)
        [fun x => x + x, fun x => x - x, fun x => x * x]).evalP = 0 :=
  ⟨fun _ _ _ _ _ _ => rfl,
   fun _ v fs => evalP_chainAll (linkPack v) fs,
   rfl⟩

/-- C2: for every value `v`, the terminal node `Link::new(v)` evaluates to
exactly `v`, with no transformation applied; concretely, a terminal node
built from `"Hello"` evaluates to `"Hello"`.  Both `Link.new` and its
evaluation are total functions, so construction and evaluation cannot
fail. -/
theorem eval_link_identity :
    (∀ (T : Type) (v : T), Chained.eval (Link.new v) = v)
    ∧ Chained.eval (Link.new "Hello") = "Hello" :=
  ⟨fun _ _ => rfl, rfl⟩

/-- C3: the attach operation performs no evaluation: it only builds a
composition node holding the evaluable and the transformation unchanged
(both in the pure and in the state-passing rendering), and in the
state-passing rendering the transformation is applied to the store only
inside the subsequent `eval`, never during construction. -/
theorem chain_builds_inert_structure :
    (∀ (C B T : Type) (i : Chained C B) (c : C) (f : B → T),
        (@Chained.chain C B T i c f).val = c
        ∧ (@Chained.chain C B T i c f).fn = f)
    ∧ (∀ (σ C B T : Type) (i : SChained σ C B) (c : C) (f : B → σ → T × σ)
        (s : σ),
        (@SChained.chainS σ C B T i c f).val = c
        ∧ (@SChained.chainS σ C B T i c f).fn = f
        ∧ @SChained.evalS σ _ _ (@instSChainedChain σ C B T i)
            (@SChained.chainS σ C B T i c f) s
          = f (@SChained.evalS σ C B i c s).1 (@SChained.evalS σ C B i c s).2) :=
  ⟨fun _ _ _ _ _ _ => ⟨rfl, rfl⟩,
   fun _ _ _ _ _ _ _ _ => ⟨rfl, rfl, rfl⟩⟩

/-- C4 (code behavior at the failing input): `chained_as_mut` as declared in
the source returns a terminal node holding the read-only view `&T` — the
`&mut T` produced by `as_mut` is coerced to `&T` — so evaluating it yields a
`Shrd` (shared, read-only) view through which no step can mutate the
original; at the crate's own `as_mut` test input (a boxed `"abc"` string)
the evaluated item is the read-only view of `"abc"`. -/
theorem chained_as_mut_yields_shared_view :
    (∀ (S T : Type) (asMut : S → T) (self : S),
        Chained.eval (chained_as_mut asMut self) = Shrd.mk (asMut self))
    ∧ Chained.eval (chained_as_mut (fun s : String => s) "abc")
        = Shrd.mk "abc" :=
  ⟨fun _ _ _ _ => rfl, rfl⟩

/-- C5: duplicating a chain before evaluation (the derived `Clone`, which
clones the predecessor and the closure with their own `Clone`
implementations) and evaluating both the original and the copy yields equal
outputs, whenever the field clones preserve evaluation and the closure's
observable behavior. -/
theorem eval_clone_eq_eval {C B T : Type} [i : Chained C B]
    (clC : C → C) (clF : (B → T) → (B → T)) (c : Chain C B T)
    (hC : Chained.eval (clC c.val) = Chained.eval c.val)
    (hF : ∀ b, clF c.fn b = c.fn b) :
    Chained.eval (Chain.cloneC clC clF c) = Chained.eval c := by
  show clF c.fn (Chained.eval (clC c.val)) = c.fn (Chained.eval c.val)
  rw [hF, hC]

/-- Witness for C5 at the crate's own `cloned` test: the chain summing
`0..100`, duplicated before evaluation, evaluates equally on both copies,
and both evaluate to `4950`. -/
theorem eval_clone_eq_eval_witness :
    Chained.eval (Chain.cloneC (Link.cloneL id) id sumChain)
      = Chained.eval sumChain
    ∧ Chained.eval sumChain = 4950 :=
  ⟨eval_clone_eq_eval (Link.cloneL id) id sumChain rfl (fun _ => rfl),
   by decide⟩

/-- C6: each form of the `chained!` macro expands to exactly the explicit
construct/attach/evaluate sequence of §6: the bare form builds a terminal
node and attaches each step left-to-right without evaluating; the `>>` form
additionally evaluates at the end; the `=>`-prefixed form attaches steps to
an existing chain without evaluating; the `>>>`-prefixed form attaches to an
existing chain and then evaluates; and the evaluated forms produce the
left-to-right fold of the steps. -/
theorem chained_macro_lowering :
    (∀ (α : Type) (v : α) (fs : List (α → α)),
        expandBare v fs = lowerBare v fs)
    ∧ (∀ (α : Type) (v : α) (fs : List (α → α)),
        expandBareEval v fs = (lowerBare v fs).evalP)
    ∧ (∀ (α : Type) (p : EvalPack α) (fs : List (α → α)),
        expandExtend p fs = lowerExtend p fs)
    ∧ (∀ (α : Type) (p : EvalPack α) (fs : List (α → α)),
        expandExtendEval p fs = (lowerExtend p fs).evalP)
    ∧ (∀ (α : Type) (v : α) (fs : List (α → α)),
        expandBareEval v fs = fs.foldl (fun a f => f a) v) :=
  ⟨fun _ v fs => chainAll_eq_foldl_attach (linkPack v) fs,
   fun _ v fs => congrArg EvalPack.evalP (chainAll_eq_foldl_attach (linkPack v) fs),
   fun _ p fs => chainAll_eq_foldl_attach p fs,
   fun _ p fs => congrArg EvalPack.evalP (chainAll_eq_foldl_attach p fs),
   fun _ v fs => evalP_chainAll (linkPack v) fs⟩

/-- C7: for a chain whose terminal node holds a mutable borrow of a
variable (the store), evaluation hands the borrow to the step and the
step's mutation of the store is exactly the store after evaluation, i.e.
visible through the original variable; concretely, appending `"."` to the
borrowed string `"test"` leaves the variable holding `"test."` after
evaluation. -/
theorem mut_chain_mutation_visible :
    (∀ (T β : Type) (r : MutR T) (f : MutR T → T → β × T) (st : T),
        SChained.evalS (SChained.chainS (chained_mut r) f) st = f r st)
    ∧ SChained.evalS (SChained.chainS (chained_mut (T := String) (MutR.mk ()))
          (fun (_ : MutR String) (s : String) => (PUnit.unit, s ++ "."))) "test"
        = (PUnit.unit, "test.") :=
  ⟨fun _ _ _ _ _ => rfl, rfl⟩

/-- C8: `to_chained` reads its receiver through a shared borrow, duplicates
it with the receiver's `Clone` implementation, and begins a chain owning the
duplicate; the original variable is unchanged by construction, and is still
unchanged after the chain is evaluated (evaluation returns the duplicate and
leaves the store untouched). -/
theorem to_chained_leaves_original_untouched :
    ∀ (T : Type) (cl : T → T) (st : T),
      to_chained cl st = Link.new (cl st)
      ∧ (to_chained_st cl st).2 = st
      ∧ (to_chained_st cl st).1.val = cl st
      ∧ SChained.evalS (σ := T) (to_chained_st cl st).1 (to_chained_st cl st).2
          = (cl st, st) :=
  fun _ _ _ => ⟨rfl, rfl, rfl, rfl⟩

/-- C10: the blanket implementation makes every type able to begin a chain,
and the three owned-entry constructors agree: `into_chained`, `From::from`
and `Link::new` build the same terminal node, and evaluating any of them
returns the original value. -/
theorem entry_constructors_agree :
    ∀ (T : Type) (v : T),
      into_chained v = Link.new v
      ∧ Link.fromValue v = Link.new v
      ∧ Chained.eval (into_chained v) = v
      ∧ Chained.eval (Link.fromValue v) = v
      ∧ Chained.eval (Link.new v) = v :=
  fun _ _ => ⟨rfl, rfl, rfl, rfl, rfl⟩
